import Mathlib

/-
  Verification of the annotation-driven parsing engine of `format_lean`
  (file `src/format_lean/lecture.py`).

  The document-node dataclasses and the fifteen line-reader rules are
  embedded from `lecture.py`.  The driving engine (`FileReader` /
  `LineReader` in `format_lean/line_reader.py`) is not part of the given
  sources; its per-line dispatch, blank-line handling, whole-line
  application of the unanchored marker patterns, 1-based line numbering
  and end-of-input check are modelled from the specification (sections
  4.3, 6 and 7).  The external verifier is modelled as an opaque oracle
  (section 4.4), and lines are passed to the handlers exactly as read,
  including the end-of-line terminator (section 8 round-trip).
-/

namespace FormatLean

/-! ## Character-level pattern matching

The rule patterns of `lecture.py` are simple regular expressions; they are
embedded here as executable functions on `List Char`.  `\s` is modelled by
`Char.isWhitespace`. -/

def isWsChar (c : Char) : Bool := c.isWhitespace

/-- Drop the maximal whitespace prefix (the regex `\s*`). -/
def chompWs (l : List Char) : List Char := l.dropWhile isWsChar

/-- Match a literal prefix; return the remainder on success. -/
def chompLit : List Char → List Char → Option (List Char)
  | [], l => some l
  | _ :: _, [] => none
  | c :: cs, x :: xs => if x = c then chompLit cs xs else none

/-- All characters are whitespace (the regex `\s*$`, with `$` matching
before the trailing end-of-line terminator). -/
def allWs (l : List Char) : Bool := l.all isWsChar

/-- Modelled from the spec: a syntactically blank line (engine blank-line
test, spec 4.3 step 2). -/
def blankLine (s : String) : Bool := allWs s.toList

/-- The opening-marker patterns of `lecture.py`: optional whitespace, the
two-character opening marker (slash then dash), optional whitespace, the
keyword, trailing whitespace (`TextBegin` with empty keyword,
`SectionBegin`, `SubSectionBegin`, `DefinitionBegin`, `LemmaBegin`). -/
def matchOpenL (kw : List Char) (l : List Char) : Bool :=
  match chompLit ['/', '-'] (chompWs l) with
  | none => false
  | some rest =>
    match chompLit kw (chompWs rest) with
    | none => false
    | some rest2 => allWs rest2

def textBeginMatch (s : String) : Bool := matchOpenL [] s.toList

def sectionBeginMatch (s : String) : Bool := matchOpenL "Section".toList s.toList

def subsectionBeginMatch (s : String) : Bool := matchOpenL "Sub-section".toList s.toList

def definitionBeginMatch (s : String) : Bool := matchOpenL "Definition".toList s.toList

def lemmaBeginMatch (s : String) : Bool := matchOpenL "Lemma".toList s.toList

/-- The anchored token patterns `^begin\s*$` / `^end\s*$` of `ProofBegin`
and `ProofEnd`. -/
def matchTokenL (tok : List Char) (l : List Char) : Bool :=
  match chompLit tok l with
  | none => false
  | some rest => allWs rest

def proofBeginMatch (s : String) : Bool := matchTokenL "begin".toList s.toList

def proofEndMatch (s : String) : Bool := matchTokenL "end".toList s.toList

/-- Character class `[\s{]` of the `ProofComment` pattern. -/
def commentPrefixClass (c : Char) : Bool := isWsChar c || c.toNat = 123

/-- Drop a single trailing end-of-line terminator (the regex `$` stands
just before a final newline, so the capture group excludes it). -/
def dropLastNl (l : List Char) : List Char :=
  match l.getLast? with
  | some c => if c = '\n' then l.dropLast else l
  | none => l

/-- The `ProofComment` pattern `^[\s{]*-- (.*)$`: on success, return the
captured comment text. -/
def proofCommentCap (s : String) : Option String :=
  match chompLit ['-', '-', ' '] (s.toList.dropWhile commentPrefixClass) with
  | none => none
  | some rest => some (String.mk (dropLastNl rest))

/-- Modelled from the spec: the unanchored `-- begin header` pattern is
applied as a whole-line marker, whitespace-tolerant at line start/end
(spec section 6); the application mode lives in the missing
`line_reader.py`. -/
def headerBeginMatch (s : String) : Bool :=
  match chompLit "-- begin header".toList (chompWs s.toList) with
  | none => false
  | some rest => allWs rest

/-- Modelled from the spec: the `-- end header` marker, as above. -/
def headerEndMatch (s : String) : Bool :=
  match chompLit "-- end header".toList (chompWs s.toList) with
  | none => false
  | some rest => allWs rest

/-- Modelled from the spec: the generic closing marker (dash then slash,
shared by `TextEnd`, `SectionEnd`, `SubSectionEnd`, `DefinitionEnd`,
`LemmaEnd`) is recognised as a lone marker on its line,
whitespace-tolerant (spec section 6). -/
def closeMatchL (l : List Char) : Bool :=
  match chompLit ['-', '/'] (chompWs l) with
  | none => false
  | some rest => allWs rest

def closeMatch (s : String) : Bool := closeMatchL s.toList

/-! ## Document model (the dataclasses of `lecture.py`)

The constant `name` tags of the Python dataclasses (pure rendering
metadata) are omitted. -/

structure Paragraph where
  content : String
deriving DecidableEq

structure Text where
  paragraphs : List Paragraph
deriving DecidableEq

structure Section where
  title : String
deriving DecidableEq

structure SubSection where
  title : String
deriving DecidableEq

structure Definition where
  text : String
  lean : String
deriving DecidableEq

structure ProofLine where
  lean : String
  tactic_state_left : String
  tactic_state_right : String
deriving DecidableEq

structure ProofItem where
  text : String
  lines : List ProofLine
deriving DecidableEq

structure Proof where
  items : List ProofItem
deriving DecidableEq

structure Lemma where
  text : String
  lean : String
  proof : Proof
deriving DecidableEq

/-- Replace the items of a lemma's proof. -/
def lemSetItems (L : Lemma) (items : List ProofItem) : Lemma :=
  { L with proof := { items := items } }

/-- A top-level document node of the output sequence. -/
inductive Node where
  | text (t : Text)
  | sec (s : Section)
  | subsec (s : SubSection)
  | defn (d : Definition)
  | lem (l : Lemma)
deriving DecidableEq

/-! ## Parser state

The Python engine stores closures as the current normal-line and
blank-line handlers.  Every closure installed by `lecture.py` captures the
node (resp. proof item) that was last appended when the closure was
installed; the embedding represents each closure by a tag plus the index
of the captured node in the output sequence. -/

/-- The normal-line handlers installed by the rules of `lecture.py`. -/
inductive NormalH where
  | dismiss
  | textAppend (i : Nat)
  | secTitle (i : Nat)
  | subsecTitle (i : Nat)
  | defText (i : Nat)
  | defCode (i : Nat)
  | lemText (i : Nat)
  | lemCode (i : Nat)
  | proofTactic (i : Nat) (j : Nat)
deriving DecidableEq

/-- The blank-line handlers installed by the rules of `lecture.py`. -/
inductive BlankH where
  | dismiss
  | textPara (i : Nat)
  | defReset
deriving DecidableEq

/-- Parse-abort conditions: `attrErr` models the Python
`AttributeError` / `IndexError` raised when a handler's structural
assumption fails; `queryFail` models a failed verifier query (fatal,
spec section 7); `openMode` models the structural nesting error at
end-of-input (spec sections 4.3 and 7). -/
inductive ParseErr where
  | attrErr
  | queryFail (file : String) (line : Nat) (col : Nat)
  | openMode (status : String) (line : Nat)
deriving DecidableEq

/-- The engine state: mode string, output sequence, the two installed
handlers, and the source position used for verifier queries.  The
`queries` field is an instrumentation log of every verifier query issued,
as (file, line, column). -/
structure FileReader where
  status : String
  output : List Node
  normalH : NormalH
  blankH : BlankH
  filename : String
  cur_line_nb : Nat
  queries : List (String × Nat × Nat)
deriving DecidableEq

/-- Modelled from the spec: the Verifier Query Client (spec section 4.4),
an opaque synchronous service keyed by (file, line, column); `none`
models a failed query. -/
def Oracle : Type := String → Nat → Nat → Option String

def oracleTotal (oracle : Oracle) : Prop :=
  ∀ f n c, ∃ s, oracle f n c = some s

/-- Reset to the default mode with no-op handlers (`FileReader.reset`). -/
def reset (fr : FileReader) : FileReader :=
  { fr with status := "", normalH := .dismiss, blankH := .dismiss }

/-- Run the current normal-line handler on a non-matching line.
Each case mirrors the closure installed by the corresponding rule in
`lecture.py`; the `proofTactic` case (installed by `ProofComment`) issues
the two verifier queries at column 1 and column = length of the raw line
and appends a `ProofLine`. -/
def runNormalH (oracle : Oracle) (h : NormalH) (fr : FileReader) (line : String) :
    Except ParseErr FileReader :=
  match h with
  | .dismiss => .ok fr
  | .textAppend i =>
    match fr.output[i]? with
    | some (.text t) =>
      match t.paragraphs.getLast? with
      | some p =>
        .ok { fr with output := (fr.output.set i
                (.text { paragraphs := t.paragraphs.dropLast ++ [{ content := p.content ++ line }] })) }
      | none => .error .attrErr
    | _ => .error .attrErr
  | .secTitle i =>
    match fr.output[i]? with
    | some (.sec s) =>
      .ok { fr with output := fr.output.set i (.sec { title := s.title ++ line }) }
    | _ => .error .attrErr
  | .subsecTitle i =>
    match fr.output[i]? with
    | some (.subsec s) =>
      .ok { fr with output := fr.output.set i (.subsec { title := s.title ++ line }) }
    | _ => .error .attrErr
  | .defText i =>
    match fr.output[i]? with
    | some (.defn d) =>
      .ok { fr with output := fr.output.set i (.defn { d with text := d.text ++ line }) }
    | _ => .error .attrErr
  | .defCode i =>
    match fr.output[i]? with
    | some (.defn d) =>
      .ok { fr with output := fr.output.set i (.defn { d with lean := d.lean ++ line }) }
    | _ => .error .attrErr
  | .lemText i =>
    match fr.output[i]? with
    | some (.lem L) =>
      .ok { fr with output := fr.output.set i (.lem { L with text := L.text ++ line }) }
    | _ => .error .attrErr
  | .lemCode i =>
    match fr.output[i]? with
    | some (.lem L) =>
      .ok { fr with output := fr.output.set i (.lem { L with lean := L.lean ++ line }) }
    | _ => .error .attrErr
  | .proofTactic i j =>
    match fr.output[i]? with
    | some (.lem L) =>
      match L.proof.items[j]? with
      | some it =>
        match oracle fr.filename fr.cur_line_nb 1 with
        | none => .error (.queryFail fr.filename fr.cur_line_nb 1)
        | some tsl =>
          match oracle fr.filename fr.cur_line_nb line.length with
          | none => .error (.queryFail fr.filename fr.cur_line_nb line.length)
          | some tsr =>
            .ok { fr with
                  status := "proof",
                  output := (fr.output.set i (.lem { L with proof := { items := (L.proof.items.set j
                    { it with lines := (it.lines ++
                        [{ lean := line, tactic_state_left := tsl, tactic_state_right := tsr }]) }) } })),
                  queries := (fr.queries ++
                    [(fr.filename, fr.cur_line_nb, 1), (fr.filename, fr.cur_line_nb, line.length)]) }
      | none => .error .attrErr
    | _ => .error .attrErr

/-- Run the current blank-line handler. -/
def runBlankH (h : BlankH) (fr : FileReader) : Except ParseErr FileReader :=
  match h with
  | .dismiss => .ok fr
  | .textPara i =>
    match fr.output[i]? with
    | some (.text t) =>
      .ok { fr with output := fr.output.set i (.text { paragraphs := t.paragraphs ++ [{ content := "" }] }) }
    | _ => .error .attrErr
  | .defReset => .ok (reset fr)

/-- Try the fifteen matcher rules in their registration order
(`render_lean_file` in `lecture.py`): `HeaderBegin`, `HeaderEnd`,
`SectionBegin`, `SectionEnd`, `SubSectionBegin`, `SubSectionEnd`,
`TextBegin`, `TextEnd`, `DefinitionBegin`, `DefinitionEnd`, `LemmaBegin`,
`LemmaEnd`, `ProofBegin`, `ProofEnd`, `ProofComment`.  `none` means no
rule matched and its guard accepted (spec section 4.2 guard semantics). -/
def tryRules (fr : FileReader) (line : String) : Option (Except ParseErr FileReader) :=
  if headerBeginMatch line then
    some (.ok { fr with status := "header", normalH := .dismiss })
  else if headerEndMatch line then
    some (.ok { fr with status := "" })
  else if sectionBeginMatch line then
    some (.ok { fr with status := "section",
                        output := fr.output ++ [.sec { title := "" }],
                        normalH := .secTitle fr.output.length })
  else if closeMatch line && fr.status == "section" then
    some (.ok (reset fr))
  else if subsectionBeginMatch line then
    some (.ok { fr with status := "subsection",
                        output := fr.output ++ [.subsec { title := "" }],
                        normalH := .subsecTitle fr.output.length })
  else if closeMatch line && fr.status == "subsection" then
    some (.ok (reset fr))
  else if textBeginMatch line then
    some (.ok { fr with status := "text",
                        output := fr.output ++ [.text { paragraphs := [{ content := "" }] }],
                        normalH := .textAppend fr.output.length,
                        blankH := .textPara fr.output.length })
  else if closeMatch line && fr.status == "text" then
    some (.ok (reset fr))
  else if definitionBeginMatch line then
    some (.ok { fr with status := "definition_text",
                        output := fr.output ++ [.defn { text := "", lean := "" }],
                        normalH := .defText fr.output.length })
  else if closeMatch line && fr.status == "definition_text" then
    some (if fr.output.isEmpty then .error .attrErr
          else .ok { fr with status := "definition_lean",
                             normalH := .defCode (fr.output.length - 1),
                             blankH := .defReset })
  else if lemmaBeginMatch line then
    some (.ok { fr with status := "lemma_text",
                        output := fr.output ++ [.lem { text := "", lean := "", proof := { items := [] } }],
                        normalH := .lemText fr.output.length })
  else if closeMatch line && fr.status == "lemma_text" then
    some (if fr.output.isEmpty then .error .attrErr
          else .ok { fr with status := "lemma_lean",
                             normalH := .lemCode (fr.output.length - 1) })
  else if proofBeginMatch line then
    some (.ok { fr with status := "proof", normalH := .dismiss })
  else if proofEndMatch line && fr.status == "proof" then
    some (.ok (reset fr))
  else
    match proofCommentCap line with
    | none => none
    | some cap =>
      if fr.status == "proof" then
        some (match fr.output.getLast? with
          | some (.lem L) =>
            let L2 : Lemma := lemSetItems L (L.proof.items ++ [{ text := cap, lines := [] }])
            .ok { fr with status := "proof_comment",
                          output := (fr.output.dropLast ++ [.lem L2]),
                          normalH := .proofTactic (fr.output.length - 1) L.proof.items.length }
          | _ => .error .attrErr)
      else if fr.status == "proof_comment" then
        some (match fr.output.getLast? with
          | some (.lem L) =>
            match L.proof.items.getLast? with
            | some it =>
              let it2 : ProofItem := { it with text := it.text ++ cap }
              let L2 : Lemma := lemSetItems L (L.proof.items.dropLast ++ [it2])
              .ok { fr with output := (fr.output.dropLast ++ [.lem L2]),
                            normalH := .proofTactic (fr.output.length - 1) (L.proof.items.length - 1) }
            | none => .error .attrErr
          | _ => .error .attrErr)
      else none

/-- Modelled from the spec: one step of the per-line algorithm (spec
section 4.3): increment the 1-based line counter, dispatch a blank line to
the blank-line handler, otherwise try the rules in order, otherwise fall
back to the normal-line handler. -/
def stepLine (oracle : Oracle) (fr0 : FileReader) (line : String) : Except ParseErr FileReader :=
  let fr := { fr0 with cur_line_nb := fr0.cur_line_nb + 1 }
  if blankLine line then runBlankH fr.blankH fr
  else
    match tryRules fr line with
    | some r => r
    | none => runNormalH oracle fr.normalH fr line

/-- Process a list of lines sequentially; the first fatal condition aborts
the parse. -/
def processLines (oracle : Oracle) : FileReader → List String → Except ParseErr FileReader
  | fr, [] => .ok fr
  | fr, l :: ls =>
    match stepLine oracle fr l with
    | .error e => .error e
    | .ok fr' => processLines oracle fr' ls

/-- The initial engine state for a source file. -/
def initFR (fname : String) : FileReader :=
  { status := "", output := [], normalH := .dismiss, blankH := .dismiss,
    filename := fname, cur_line_nb := 0, queries := [] }

/-- Modelled from the spec: the whole-file parse (`read_file` of the
missing `line_reader.py`): process every line from the initial state; at
end of input the output sequence is the result, and a mode left open is a
structural nesting error (spec section 4.3 step 5 and section 7). -/
def readLines (oracle : Oracle) (fname : String) (ls : List String) :
    Except ParseErr (List Node) :=
  match processLines oracle (initFR fname) ls with
  | .error e => .error e
  | .ok fr => if fr.status == "" then .ok fr.output else .error (.openMode fr.status fr.cur_line_nb)

/-- An always-succeeding verifier oracle, for concrete runs. -/
def oneOracle : Oracle := fun _ _ _ => some ""

/-- A line that matches no rule pattern and is not blank: it always falls
through to the current normal-line handler. -/
def plainLine (s : String) : Bool :=
  !(headerBeginMatch s) && !(headerEndMatch s) && !(sectionBeginMatch s) &&
  !(subsectionBeginMatch s) && !(textBeginMatch s) && !(closeMatch s) &&
  !(definitionBeginMatch s) && !(lemmaBeginMatch s) && !(proofBeginMatch s) &&
  !(proofEndMatch s) && (proofCommentCap s).isNone && !(blankLine s)

/-- A proof-step comment line: it matches the `ProofComment` pattern and
none of the rules registered before it. -/
def commentOnly (s : String) : Bool :=
  (proofCommentCap s).isSome &&
  !(headerBeginMatch s) && !(headerEndMatch s) && !(sectionBeginMatch s) &&
  !(subsectionBeginMatch s) && !(textBeginMatch s) && !(closeMatch s) &&
  !(definitionBeginMatch s) && !(lemmaBeginMatch s) && !(proofBeginMatch s) &&
  !(proofEndMatch s) && !(blankLine s)

/-- One comment-introduced proof step: its introducing comment line and
the formal tactic lines that follow it. -/
structure Step where
  comment : String
  tactics : List String
deriving DecidableEq

/-- A well-formed annotated step: the comment line reaches the
`ProofComment` rule, and it is followed by at least one tactic line, each
matching no rule. -/
def goodStep (g : Step) : Bool :=
  commentOnly g.comment && !g.tactics.isEmpty && g.tactics.all plainLine

/-- The concrete lines of a list of annotated proof steps. -/
def stepsLines : List Step → List String
  | [] => []
  | g :: gs => (g.comment :: g.tactics) ++ stepsLines gs

/-- Concatenation of a list of line strings. -/
def catS : List String → String
  | [] => ""
  | s :: ss => s ++ catS ss

/-- An always-failing verifier oracle. -/
def noneOracle : Oracle := fun _ _ _ => none

/-- A fresh lemma node, as created by `LemmaBegin`. -/
def emptyLemma : Lemma := { text := "", lean := "", proof := { items := [] } }

/-- Concrete annotated proof steps: two comment-introduced steps with two
and one tactic lines. -/
def c1steps : List Step :=
  [{ comment := "-- step one\n", tactics := ["  t1,\n", "  t2,\n"] },
   { comment := "-- step two\n", tactics := ["  t3,\n"] }]

/-- A state in mode `proof` whose most recent node is a fresh lemma. -/
def c1fr : FileReader :=
  { status := "proof", output := [.lem emptyLemma], normalH := .dismiss, blankH := .dismiss,
    filename := "f", cur_line_nb := 5, queries := [] }

/-- A state inside an annotated step: the `ProofComment` handler targets
the only item of the only lemma. -/
def c2fr : FileReader :=
  { status := "proof_comment",
    output := [.lem { text := "", lean := "", proof := { items := [{ text := "c", lines := [] }] } }],
    normalH := .proofTactic 0 0, blankH := .dismiss,
    filename := "f", cur_line_nb := 6, queries := [] }

/-- Same shape of state as `c2fr`, for exercising verifier failures. -/
def c6fr : FileReader :=
  { status := "proof_comment",
    output := [.lem { text := "", lean := "", proof := { items := [{ text := "c", lines := [] }] } }],
    normalH := .proofTactic 0 0, blankH := .dismiss,
    filename := "g", cur_line_nb := 3, queries := [] }

/-- The eight-line round-trip input of spec section 8. -/
def c3lines : List String :=
  ["/- Lemma\n", "Title.\n", "-/\n", "def foo := 1\n", "begin\n",
   "  -- step one\n", "  exact rfl,\n", "end\n"]

/-- The lemma node as it stands just after the round-trip input's comment
line has been read. -/
def c3lemma0 : Lemma :=
  { text := "Title.\n",
    lean := "def foo := 1\n",
    proof := { items := [{ text := "step one", lines := [] }] } }

/-- The single output node of the round-trip input, with the two verifier
states of its one tactic line. -/
def c3node (s1 s2 : String) : Node :=
  Node.lem
    { text := "Title.\n",
      lean := "def foo := 1\n",
      proof := { items := [{ text := "step one",
                             lines := [{ lean := "  exact rfl,\n",
                                         tactic_state_left := s1,
                                         tactic_state_right := s2 }] }] } }

/-- The unmatched-Section input of spec section 8. -/
def c5lines : List String := ["/- Section\n", "Title\n"]

/-- A prose block whose body line is a bare proof-begin token. -/
def c7lines : List String := ["/-\n", "begin\n", "end\n"]

/-- A state in mode `text` with one open paragraph. -/
def c7fr : FileReader :=
  { status := "text", output := [.text { paragraphs := [{ content := "p" }] }],
    normalH := .textAppend 0, blankH := .textPara 0,
    filename := "f", cur_line_nb := 1, queries := [] }

/-- A Definition block whose code region contains a header-begin marker
line before the terminating blank line. -/
def c8lines : List String :=
  ["/- Definition\n", "T\n", "-/\n", "-- begin header\n", "\n"]

/-- A header region containing a Section opening marker. -/
def c9lines : List String :=
  ["-- begin header\n", "/- Section\n", "-- end header\n"]

/-- A Definition followed by a proof-begin token and a proof comment: the
comment fires while the most recent node is not a Lemma. -/
def c10lines : List String :=
  ["/- Definition\n", "T\n", "-/\n", "begin\n", "-- c\n"]

/-- A state in mode `proof` whose most recent node is a Definition. -/
def c10fr : FileReader :=
  { status := "proof", output := [.defn { text := "T\n", lean := "" }],
    normalH := .dismiss, blankH := .defReset,
    filename := "f", cur_line_nb := 4, queries := [] }

/-! ## Basic list lemmas -/

theorem set_concat_length {α : Type} (l : List α) (a b : α) :
    (l ++ [a]).set l.length b = l ++ [b] := by
  induction l with
  | nil => rfl
  | cons x xs ih =>
    show x :: ((xs ++ [a]).set xs.length b) = x :: (xs ++ [b])
    rw [ih]

theorem processLines_append (oracle : Oracle) (ls1 ls2 : List String) :
    ∀ fr : FileReader, processLines oracle fr (ls1 ++ ls2) =
      match processLines oracle fr ls1 with
      | .error e => .error e
      | .ok fr2 => processLines oracle fr2 ls2 := by
  induction ls1 with
  | nil => intro fr; rfl
  | cons l ls ih =>
    intro fr
    cases h : stepLine oracle fr l with
    | error e => simp [processLines, h]
    | ok fr2 => simp [processLines, h, ih fr2]

/-! ## Pattern-matching lemmas -/

theorem chompLit_eq_some (pre : List Char) :
    ∀ l r, chompLit pre l = some r ↔ l = pre ++ r := by
  induction pre with
  | nil => intro l r; simp [chompLit]
  | cons c cs ih =>
    intro l r
    cases l with
    | nil => simp [chompLit]
    | cons x xs =>
      by_cases h : x = c
      · subst h; simp [chompLit, ih]
      · simp [chompLit, h]

theorem chompWs_cons_ws {c : Char} (l : List Char) (h : isWsChar c = true) :
    chompWs (c :: l) = chompWs l := by
  simp [chompWs, List.dropWhile_cons, h]

theorem chompWs_cons_notws {c : Char} (l : List Char) (h : isWsChar c = false) :
    chompWs (c :: l) = c :: l := by
  simp [chompWs, List.dropWhile_cons, h]

theorem chompWs_of_allWs : ∀ l : List Char, allWs l = true → chompWs l = []
  | [], _ => rfl
  | c :: l, h => by
    simp only [allWs, List.all_cons, Bool.and_eq_true] at h
    rw [chompWs_cons_ws l h.1]
    exact chompWs_of_allWs l h.2

theorem closeMatch_spec (s : String) (h : closeMatch s = true) :
    ∃ r, chompWs s.toList = '-' :: '/' :: r ∧ allWs r = true := by
  unfold closeMatch closeMatchL at h
  cases hc : chompLit ['-', '/'] (chompWs s.toList) with
  | none => rw [hc] at h; exact absurd h (by simp)
  | some rest =>
    rw [hc] at h
    exact ⟨rest, (chompLit_eq_some _ _ _).mp hc, h⟩

theorem matchTokenL_false_of_head (ch : Char) (tok l r : List Char)
    (hch : isWsChar ch = false) (hne : ch ≠ '-')
    (hws : chompWs l = '-' :: r) : matchTokenL (ch :: tok) l = false := by
  cases l with
  | nil => simp [chompWs] at hws
  | cons c l2 =>
    by_cases hc : isWsChar c = true
    · have hcne : ¬(c = ch) := by
        intro e; subst e; rw [hc] at hch; exact absurd hch (by simp)
      simp [matchTokenL, chompLit, hcne]
    · have h2 := chompWs_cons_notws l2 (by simpa using hc)
      rw [h2] at hws
      injection hws with e1 e2
      subst e1
      have hne2 : ¬(('-' : Char) = ch) := fun e => hne e.symm
      simp [matchTokenL, chompLit, hne2]

theorem dropWhile_cpc_of_chompWs : ∀ (l r : List Char), chompWs l = '-' :: r →
    l.dropWhile commentPrefixClass = '-' :: r
  | [], _, hws => by simp [chompWs] at hws
  | c :: l2, r, hws => by
    by_cases hc : isWsChar c = true
    · have hcpc : commentPrefixClass c = true := by simp [commentPrefixClass, hc]
      rw [chompWs_cons_ws l2 hc] at hws
      rw [List.dropWhile_cons, if_pos hcpc]
      exact dropWhile_cpc_of_chompWs l2 r hws
    · have h2 := chompWs_cons_notws l2 (by simpa using hc)
      rw [h2] at hws
      injection hws with e1 e2
      subst e1; subst e2
      have hstop : commentPrefixClass '-' = false := by decide
      rw [List.dropWhile_cons, if_neg (by simp [hstop])]

/-- A line recognised as the generic closing marker matches none of the
other rule patterns and is not blank. -/
theorem close_excl (s : String) (h : closeMatch s = true) :
    headerBeginMatch s = false ∧ headerEndMatch s = false ∧ sectionBeginMatch s = false ∧
    subsectionBeginMatch s = false ∧ textBeginMatch s = false ∧ definitionBeginMatch s = false ∧
    lemmaBeginMatch s = false ∧ proofBeginMatch s = false ∧ proofEndMatch s = false ∧
    proofCommentCap s = none ∧ blankLine s = false := by
  obtain ⟨r, hws, -⟩ := closeMatch_spec s h
  have hopen : chompLit ['/', '-'] ('-' :: '/' :: r) = none := rfl
  have hhb : chompLit "-- begin header".toList ('-' :: '/' :: r) = none := rfl
  have hhe : chompLit "-- end header".toList ('-' :: '/' :: r) = none := rfl
  have hcm : chompLit ['-', '-', ' '] ('-' :: '/' :: r) = none := rfl
  have hbeg : ("begin".toList) = 'b' :: "egin".toList := rfl
  have hend : ("end".toList) = 'e' :: "nd".toList := rfl
  refine ⟨?_, ?_, ?_, ?_, ?_, ?_, ?_, ?_, ?_, ?_, ?_⟩
  · unfold headerBeginMatch
    rw [hws, hhb]
  · unfold headerEndMatch
    rw [hws, hhe]
  · unfold sectionBeginMatch matchOpenL
    rw [hws, hopen]
  · unfold subsectionBeginMatch matchOpenL
    rw [hws, hopen]
  · unfold textBeginMatch matchOpenL
    rw [hws, hopen]
  · unfold definitionBeginMatch matchOpenL
    rw [hws, hopen]
  · unfold lemmaBeginMatch matchOpenL
    rw [hws, hopen]
  · unfold proofBeginMatch
    rw [hbeg]
    exact matchTokenL_false_of_head 'b' _ _ ('/' :: r) (by decide) (by decide) hws
  · unfold proofEndMatch
    rw [hend]
    exact matchTokenL_false_of_head 'e' _ _ ('/' :: r) (by decide) (by decide) hws
  · have hd := dropWhile_cpc_of_chompWs s.toList ('/' :: r) hws
    unfold proofCommentCap
    rw [hd, hcm]
  · cases hb : blankLine s with
    | false => rfl
    | true =>
      have h0 := chompWs_of_allWs s.toList hb
      rw [hws] at h0
      exact absurd h0 (by simp)

theorem plainLine_spec (s : String) (h : plainLine s = true) :
    headerBeginMatch s = false ∧ headerEndMatch s = false ∧ sectionBeginMatch s = false ∧
    subsectionBeginMatch s = false ∧ textBeginMatch s = false ∧ closeMatch s = false ∧
    definitionBeginMatch s = false ∧ lemmaBeginMatch s = false ∧ proofBeginMatch s = false ∧
    proofEndMatch s = false ∧ proofCommentCap s = none ∧ blankLine s = false := by
  simp only [plainLine, Bool.and_eq_true, Bool.not_eq_true', Option.isNone_iff_eq_none] at h
  tauto

theorem commentOnly_spec (s : String) (h : commentOnly s = true) :
    (∃ cap, proofCommentCap s = some cap) ∧
    headerBeginMatch s = false ∧ headerEndMatch s = false ∧ sectionBeginMatch s = false ∧
    subsectionBeginMatch s = false ∧ textBeginMatch s = false ∧ closeMatch s = false ∧
    definitionBeginMatch s = false ∧ lemmaBeginMatch s = false ∧ proofBeginMatch s = false ∧
    proofEndMatch s = false ∧ blankLine s = false := by
  simp only [commentOnly, Bool.and_eq_true, Bool.not_eq_true', Option.isSome_iff_exists] at h
  tauto

/-! ## Dispatch lemmas -/

theorem tryRules_plain (fr : FileReader) (s : String) (h : plainLine s = true) :
    tryRules fr s = none := by
  obtain ⟨h1, h2, h3, h4, h5, h6, h7, h8, h9, h10, h11, -⟩ := plainLine_spec s h
  simp [tryRules, h1, h2, h3, h4, h5, h6, h7, h8, h9, h10, h11]

theorem stepLine_plain (oracle : Oracle) (fr : FileReader) (s : String) (h : plainLine s = true) :
    stepLine oracle fr s =
      runNormalH oracle fr.normalH { fr with cur_line_nb := fr.cur_line_nb + 1 } s := by
  have hb : blankLine s = false :=
    (plainLine_spec s h).2.2.2.2.2.2.2.2.2.2.2
  have htr : ∀ fr2 : FileReader, tryRules fr2 s = none := fun fr2 => tryRules_plain fr2 s h
  simp [stepLine, hb, htr]

theorem stepLine_blank (oracle : Oracle) (fr : FileReader) (s : String) (h : blankLine s = true) :
    stepLine oracle fr s = runBlankH fr.blankH { fr with cur_line_nb := fr.cur_line_nb + 1 } := by
  simp [stepLine, h]

theorem stepLine_steady (oracle : Oracle) (fr : FileReader) (s : String)
    (hn : fr.normalH = .dismiss) (hb : fr.blankH = .dismiss)
    (h : plainLine s = true ∨ blankLine s = true) :
    stepLine oracle fr s = .ok { fr with cur_line_nb := fr.cur_line_nb + 1 } := by
  rcases h with h | h
  · rw [stepLine_plain oracle fr s h, hn]; rfl
  · rw [stepLine_blank oracle fr s h, hb]; rfl

theorem processLines_steady (oracle : Oracle) :
    ∀ ls : List String, (∀ l ∈ ls, plainLine l = true ∨ blankLine l = true) →
    ∀ fr : FileReader, fr.normalH = .dismiss → fr.blankH = .dismiss →
      processLines oracle fr ls = .ok { fr with cur_line_nb := fr.cur_line_nb + ls.length }
  | [], _, fr, _, _ => rfl
  | l :: ls, h, fr, hn, hb => by
    have h1 := h l (List.mem_cons_self l ls)
    have hrest : ∀ x ∈ ls, plainLine x = true ∨ blankLine x = true :=
      fun x hx => h x (List.mem_cons_of_mem l hx)
    show (match stepLine oracle fr l with
          | .error e => Except.error e
          | .ok fr2 => processLines oracle fr2 ls) = _
    rw [stepLine_steady oracle fr l hn hb h1]
    show processLines oracle { fr with cur_line_nb := fr.cur_line_nb + 1 } ls = _
    rw [processLines_steady oracle ls hrest { fr with cur_line_nb := fr.cur_line_nb + 1 } hn hb]
    have e : fr.cur_line_nb + 1 + ls.length = fr.cur_line_nb + (l :: ls).length := by
      simp; omega
    rw [e]

/-- Stepping a tactic line through the handler installed by
`ProofComment`: the two verifier queries are issued at column 1 and
column = length of the raw line, and the returned states are stored in a
new `ProofLine` of the captured item. -/
theorem stepLine_proofTactic (oracle : Oracle) (fr : FileReader) (line : String)
    (i j : Nat) (L : Lemma) (it : ProofItem) (s1 s2 : String)
    (hn : fr.normalH = .proofTactic i j)
    (hout : fr.output[i]? = some (.lem L))
    (hit : L.proof.items[j]? = some it)
    (hp : plainLine line = true)
    (h1 : oracle fr.filename (fr.cur_line_nb + 1) 1 = some s1)
    (h2 : oracle fr.filename (fr.cur_line_nb + 1) line.length = some s2) :
    stepLine oracle fr line = .ok { fr with
      cur_line_nb := fr.cur_line_nb + 1,
      status := "proof",
      output := (fr.output.set i (.lem (lemSetItems L (L.proof.items.set j
        { it with lines := (it.lines ++
            [{ lean := line, tactic_state_left := s1, tactic_state_right := s2 }]) })))),
      queries := (fr.queries ++ [(fr.filename, fr.cur_line_nb + 1, 1),
                                 (fr.filename, fr.cur_line_nb + 1, line.length)]) } := by
  rw [stepLine_plain oracle fr line hp, hn]
  simp [runNormalH, hout, hit, h1, h2, lemSetItems]

/-- Stepping a proof-comment line in mode `proof` when the most recently
appended node is a `Lemma`: a fresh `ProofItem` carrying the captured
comment text is appended to that lemma's proof and the mode moves to
`proof_comment`. -/
theorem stepLine_comment_proof (oracle : Oracle) (fr : FileReader) (line cap : String)
    (pre : List Node) (L : Lemma)
    (hc : commentOnly line = true)
    (hcap : proofCommentCap line = some cap)
    (hst : fr.status = "proof")
    (hout : fr.output = pre ++ [.lem L]) :
    stepLine oracle fr line = .ok { fr with
      cur_line_nb := fr.cur_line_nb + 1,
      status := "proof_comment",
      output := (pre ++ [.lem (lemSetItems L (L.proof.items ++ [{ text := cap, lines := [] }]))]),
      normalH := .proofTactic pre.length L.proof.items.length } := by
  obtain ⟨-, h1, h2, h3, h4, h5, h6, h7, h8, h9, h10, h11⟩ := commentOnly_spec line hc
  simp only [stepLine, h11, Bool.false_eq_true, if_false]
  simp only [tryRules, h1, h2, h3, h4, h5, h6, h7, h8, h9, h10, Bool.false_and,
    Bool.false_eq_true, if_false, hcap]
  rw [hst]
  simp [hout, List.getLast?_concat, List.dropLast_concat, lemSetItems]

/-- Running a block of plain tactic lines through the `ProofComment`
handler: every line is appended, in order, to the captured proof item. -/
theorem tacticRun (oracle : Oracle) (ho : oracleTotal oracle) :
    ∀ (ts : List String), (∀ t ∈ ts, plainLine t = true) →
    ∀ (fr : FileReader) (pre : List Node) (L : Lemma) (items1 : List ProofItem) (it : ProofItem),
    fr.normalH = .proofTactic pre.length items1.length →
    fr.output = pre ++ [.lem L] →
    L.proof.items = items1 ++ [it] →
    ∃ (fr2 : FileReader) (it2 : ProofItem),
      processLines oracle fr ts = .ok fr2 ∧
      fr2.output = pre ++ [.lem (lemSetItems L (items1 ++ [it2]))] ∧
      it2.lines.length = it.lines.length + ts.length ∧
      it2.text = it.text ∧
      fr2.status = (if ts.isEmpty then fr.status else "proof") ∧
      fr2.normalH = fr.normalH ∧ fr2.blankH = fr.blankH ∧ fr2.filename = fr.filename
  | [], _, fr, pre, L, items1, it, hn, hout, hitems => by
    refine ⟨fr, it, rfl, ?_, by simp, rfl, by simp, rfl, rfl, rfl⟩
    rw [hout, ← hitems]
    rfl
  | t :: ts, hts, fr, pre, L, items1, it, hn, hout, hitems => by
    obtain ⟨s1, hs1⟩ := ho fr.filename (fr.cur_line_nb + 1) 1
    obtain ⟨s2, hs2⟩ := ho fr.filename (fr.cur_line_nb + 1) t.length
    have hpt : plainLine t = true := hts t (List.mem_cons_self t ts)
    have hrest : ∀ x ∈ ts, plainLine x = true := fun x hx => hts x (List.mem_cons_of_mem t hx)
    have hidx : fr.output[pre.length]? = some (.lem L) := by
      rw [hout]; exact List.getElem?_concat_length pre (.lem L)
    have hjdx : L.proof.items[items1.length]? = some it := by
      rw [hitems]; exact List.getElem?_concat_length items1 it
    have hstep := stepLine_proofTactic oracle fr t pre.length items1.length L it s1 s2
      hn hidx hjdx hpt hs1 hs2
    let it1 : ProofItem := { it with lines := (it.lines ++
        [{ lean := t, tactic_state_left := s1, tactic_state_right := s2 }]) }
    let L1 : Lemma := lemSetItems L (items1 ++ [it1])
    let fr1 : FileReader := { fr with
      cur_line_nb := fr.cur_line_nb + 1,
      status := "proof",
      output := (pre ++ [.lem L1]),
      queries := (fr.queries ++ [(fr.filename, fr.cur_line_nb + 1, 1),
                                 (fr.filename, fr.cur_line_nb + 1, t.length)]) }
    have houts : (fr.output.set pre.length (.lem (lemSetItems L (L.proof.items.set items1.length
        it1)))) = pre ++ [.lem L1] := by
      rw [hitems, set_concat_length, hout, set_concat_length]
    have hstep2 : stepLine oracle fr t = .ok fr1 := by
      rw [hstep]
      show Except.ok { fr with
        cur_line_nb := fr.cur_line_nb + 1,
        status := "proof",
        output := (fr.output.set pre.length (.lem (lemSetItems L (L.proof.items.set items1.length it1)))),
        queries := (fr.queries ++ [(fr.filename, fr.cur_line_nb + 1, 1),
                                   (fr.filename, fr.cur_line_nb + 1, t.length)]) } = Except.ok fr1
      rw [houts]
    have hn1 : fr1.normalH = .proofTactic pre.length items1.length := hn
    have hout1 : fr1.output = pre ++ [.lem L1] := rfl
    have hitems1 : L1.proof.items = items1 ++ [it1] := rfl
    obtain ⟨fr2, it2, hp2, hout2, hlen2, htxt2, hst2, hn2, hb2, hf2⟩ :=
      tacticRun oracle ho ts hrest fr1 pre L1 items1 it1 hn1 hout1 hitems1
    refine ⟨fr2, it2, ?_, ?_, ?_, ?_, ?_, ?_, ?_, ?_⟩
    · show (match stepLine oracle fr t with
            | .error e => Except.error e
            | .ok fr3 => processLines oracle fr3 ts) = .ok fr2
      rw [hstep2]
      exact hp2
    · rw [hout2]; rfl
    · have hl1 : it1.lines.length = it.lines.length + 1 := by
        show (it.lines ++ [_]).length = _
        simp
      rw [hlen2, hl1]
      simp [List.length_cons]
      omega
    · exact htxt2
    · rw [hst2]
      cases ts with
      | nil => rfl
      | cons a b => rfl
    · exact hn2
    · exact hb2
    · exact hf2

/-- Running a sequence of well-formed annotated steps from mode `proof`
over the most recently appended lemma: each step contributes exactly one
proof item whose line count is the step's tactic-line count. -/
theorem proofRun (oracle : Oracle) (ho : oracleTotal oracle) :
    ∀ (gs : List Step), (∀ g ∈ gs, goodStep g = true) →
    ∀ (fr : FileReader) (pre : List Node) (L : Lemma),
    fr.status = "proof" →
    fr.output = pre ++ [.lem L] →
    ∃ (fr2 : FileReader) (its : List ProofItem),
      processLines oracle fr (stepsLines gs) = .ok fr2 ∧
      fr2.output = pre ++ [.lem (lemSetItems L (L.proof.items ++ its))] ∧
      its.map (fun it => it.lines.length) = gs.map (fun g => g.tactics.length) ∧
      fr2.status = (if gs.isEmpty then fr.status else "proof") ∧
      fr2.blankH = fr.blankH ∧ fr2.filename = fr.filename
  | [], _, fr, pre, L, hst, hout => by
    refine ⟨fr, [], rfl, ?_, rfl, by simp, rfl, rfl⟩
    rw [hout, List.append_nil]
    rfl
  | g :: gs, hgs, fr, pre, L, hst, hout => by
    have hg : goodStep g = true := hgs g (List.mem_cons_self g gs)
    have hrest : ∀ x ∈ gs, goodStep x = true := fun x hx => hgs x (List.mem_cons_of_mem g hx)
    have hcom : commentOnly g.comment = true := by
      simp only [goodStep, Bool.and_eq_true] at hg
      exact hg.1.1
    have hne : g.tactics.isEmpty = false := by
      simp only [goodStep, Bool.and_eq_true, Bool.not_eq_true'] at hg
      exact hg.1.2
    have hpl : ∀ x ∈ g.tactics, plainLine x = true := by
      simp only [goodStep, Bool.and_eq_true, List.all_eq_true] at hg
      exact hg.2
    obtain ⟨cap, hcap⟩ := (commentOnly_spec g.comment hcom).1
    have hstep := stepLine_comment_proof oracle fr g.comment cap pre L hcom hcap hst hout
    let it0 : ProofItem := { text := cap, lines := [] }
    let L1 : Lemma := lemSetItems L (L.proof.items ++ [it0])
    let fr1 : FileReader := { fr with
      cur_line_nb := fr.cur_line_nb + 1,
      status := "proof_comment",
      output := (pre ++ [.lem L1]),
      normalH := .proofTactic pre.length L.proof.items.length }
    have hstep2 : stepLine oracle fr g.comment = .ok fr1 := hstep
    have hn1 : fr1.normalH = .proofTactic pre.length L.proof.items.length := rfl
    have hout1 : fr1.output = pre ++ [.lem L1] := rfl
    have hitems1 : L1.proof.items = L.proof.items ++ [it0] := rfl
    obtain ⟨fr2, it2, hp2, hout2, hlen2, htxt2, hst2, hn2, hb2, hf2⟩ :=
      tacticRun oracle ho g.tactics hpl fr1 pre L1 L.proof.items it0 hn1 hout1 hitems1
    have hst2p : fr2.status = "proof" := by
      rw [hst2, hne]
      rfl
    have hout2p : fr2.output = pre ++ [.lem (lemSetItems L (L.proof.items ++ [it2]))] := by
      rw [hout2]; rfl
    obtain ⟨fr3, its3, hp3, hout3, hmap3, hst3, hb3, hf3⟩ :=
      proofRun oracle ho gs hrest fr2 pre (lemSetItems L (L.proof.items ++ [it2])) hst2p hout2p
    refine ⟨fr3, it2 :: its3, ?_, ?_, ?_, ?_, ?_, ?_⟩
    · show processLines oracle fr ((g.comment :: g.tactics) ++ stepsLines gs) = .ok fr3
      show (match stepLine oracle fr g.comment with
            | .error e => Except.error e
            | .ok frx => processLines oracle frx (g.tactics ++ stepsLines gs)) = .ok fr3
      rw [hstep2]
      show processLines oracle fr1 (g.tactics ++ stepsLines gs) = .ok fr3
      rw [processLines_append oracle g.tactics (stepsLines gs) fr1, hp2]
      exact hp3
    · rw [hout3]
      have : (lemSetItems L (L.proof.items ++ [it2])).proof.items = L.proof.items ++ [it2] := rfl
      rw [this, List.append_assoc]
      rfl
    · have hlen0 : it2.lines.length = g.tactics.length := by
        rw [hlen2]
        show (0 : Nat) + g.tactics.length = g.tactics.length
        exact Nat.zero_add _
      simp [List.map_cons, hlen0, hmap3]
    · rw [hst3, hst2p]
      simp
    · rw [hb3, hb2]
    · rw [hf3, hf2]

/-- A generic closing marker whose guard matches no open mode is declined
by every rule. -/
theorem tryRules_close_none (fr : FileReader) (line : String)
    (h : closeMatch line = true)
    (h1 : fr.status ≠ "section") (h2 : fr.status ≠ "subsection") (h3 : fr.status ≠ "text")
    (h4 : fr.status ≠ "definition_text") (h5 : fr.status ≠ "lemma_text") :
    tryRules fr line = none := by
  obtain ⟨e1, e2, e3, e4, e5, e6, e7, e8, e9, ecap, -⟩ := close_excl line h
  have b1 : (fr.status == "section") = false := beq_eq_false_iff_ne.mpr h1
  have b2 : (fr.status == "subsection") = false := beq_eq_false_iff_ne.mpr h2
  have b3 : (fr.status == "text") = false := beq_eq_false_iff_ne.mpr h3
  have b4 : (fr.status == "definition_text") = false := beq_eq_false_iff_ne.mpr h4
  have b5 : (fr.status == "lemma_text") = false := beq_eq_false_iff_ne.mpr h5
  simp [tryRules, e1, e2, e3, e4, e5, e6, e7, e8, e9, ecap, h, b1, b2, b3, b4, b5]

/-- A guard-declined generic closing marker falls through to the current
normal-line handler. -/
theorem stepLine_close_fallthrough (oracle : Oracle) (fr : FileReader) (line : String)
    (h : closeMatch line = true)
    (h1 : fr.status ≠ "section") (h2 : fr.status ≠ "subsection") (h3 : fr.status ≠ "text")
    (h4 : fr.status ≠ "definition_text") (h5 : fr.status ≠ "lemma_text") :
    stepLine oracle fr line =
      runNormalH oracle fr.normalH { fr with cur_line_nb := fr.cur_line_nb + 1 } line := by
  have hb : blankLine line = false :=
    (close_excl line h).2.2.2.2.2.2.2.2.2.2
  have htr := tryRules_close_none { fr with cur_line_nb := fr.cur_line_nb + 1 } line h h1 h2 h3 h4 h5
  simp [stepLine, hb, htr]

/-- In mode `text`, a generic closing marker is accepted by `TextEnd`. -/
theorem stepLine_close_text (oracle : Oracle) (fr : FileReader) (line : String)
    (h : closeMatch line = true) (hst : fr.status = "text") :
    stepLine oracle fr line = .ok (reset { fr with cur_line_nb := fr.cur_line_nb + 1 }) := by
  obtain ⟨e1, e2, e3, e4, e5, e6, e7, e8, e9, ecap, hbl⟩ := close_excl line h
  have b1 : (("text" : String) == "section") = false := rfl
  have b2 : (("text" : String) == "subsection") = false := rfl
  simp [stepLine, hbl, tryRules, e1, e2, e3, e4, e5, e6, e7, e8, e9, ecap, h, hst, b1, b2]

/-- The `DefinitionBegin` rule fires on its marker line in any mode. -/
theorem stepLine_defBegin (oracle : Oracle) (fr : FileReader) :
    stepLine oracle fr "/- Definition\n" = .ok { fr with
      cur_line_nb := fr.cur_line_nb + 1,
      status := "definition_text",
      output := (fr.output ++ [.defn { text := "", lean := "" }]),
      normalH := .defText fr.output.length } := by
  have hb : blankLine "/- Definition\n" = false := rfl
  have e1 : headerBeginMatch "/- Definition\n" = false := rfl
  have e2 : headerEndMatch "/- Definition\n" = false := rfl
  have e3 : sectionBeginMatch "/- Definition\n" = false := rfl
  have e4 : closeMatch "/- Definition\n" = false := rfl
  have e5 : subsectionBeginMatch "/- Definition\n" = false := rfl
  have e6 : textBeginMatch "/- Definition\n" = false := rfl
  have e7 : definitionBeginMatch "/- Definition\n" = true := rfl
  simp [stepLine, hb, tryRules, e1, e2, e3, e4, e5, e6, e7]

/-- The `DefinitionEnd` rule fires on a closing marker in mode
`definition_text`. -/
theorem stepLine_defEnd (oracle : Oracle) (fr : FileReader)
    (hst : fr.status = "definition_text") (hne : fr.output.isEmpty = false) :
    stepLine oracle fr "-/\n" = .ok { fr with
      cur_line_nb := fr.cur_line_nb + 1,
      status := "definition_lean",
      normalH := .defCode (fr.output.length - 1),
      blankH := .defReset } := by
  have hb : blankLine "-/\n" = false := rfl
  have hc : closeMatch "-/\n" = true := rfl
  have e1 : headerBeginMatch "-/\n" = false := rfl
  have e2 : headerEndMatch "-/\n" = false := rfl
  have e3 : sectionBeginMatch "-/\n" = false := rfl
  have e5 : subsectionBeginMatch "-/\n" = false := rfl
  have e6 : textBeginMatch "-/\n" = false := rfl
  have e7 : definitionBeginMatch "-/\n" = false := rfl
  have b1 : (("definition_text" : String) == "section") = false := rfl
  have b2 : (("definition_text" : String) == "subsection") = false := rfl
  have b3 : (("definition_text" : String) == "text") = false := rfl
  simp [stepLine, hb, tryRules, hc, e1, e2, e3, e5, e6, e7, hst, b1, b2, b3, hne]

/-- A blank line under the blank-line handler installed by
`DefinitionEnd` resets the engine. -/
theorem stepLine_blank_defReset (oracle : Oracle) (fr : FileReader) (s : String)
    (hbl : blankLine s = true) (hb : fr.blankH = .defReset) :
    stepLine oracle fr s = .ok (reset { fr with cur_line_nb := fr.cur_line_nb + 1 }) := by
  rw [stepLine_blank oracle fr s hbl, hb]
  rfl

/-- The `HeaderBegin` rule fires on its marker line in any mode. -/
theorem stepLine_headerBegin (oracle : Oracle) (fr : FileReader) :
    stepLine oracle fr "-- begin header\n" = .ok { fr with
      cur_line_nb := fr.cur_line_nb + 1, status := "header", normalH := .dismiss } := by
  have hb : blankLine "-- begin header\n" = false := rfl
  have e1 : headerBeginMatch "-- begin header\n" = true := rfl
  simp [stepLine, hb, tryRules, e1]

/-- The `HeaderEnd` rule fires on its marker line in any mode. -/
theorem stepLine_headerEnd (oracle : Oracle) (fr : FileReader) :
    stepLine oracle fr "-- end header\n" = .ok { fr with
      cur_line_nb := fr.cur_line_nb + 1, status := "" } := by
  have hb : blankLine "-- end header\n" = false := rfl
  have e1 : headerBeginMatch "-- end header\n" = false := rfl
  have e2 : headerEndMatch "-- end header\n" = true := rfl
  simp [stepLine, hb, tryRules, e1, e2]

theorem isEmpty_concat_false {α : Type} (l : List α) (a : α) : (l ++ [a]).isEmpty = false := by
  cases l <;> rfl

/-- Running plain lines through the `DefinitionBegin` commentary handler
appends them all to the definition's `text` buffer. -/
theorem defTextRun (oracle : Oracle) :
    ∀ (ts : List String), (∀ t ∈ ts, plainLine t = true) →
    ∀ (fr : FileReader) (out0 : List Node) (d : Definition),
    fr.normalH = .defText out0.length →
    fr.output = out0 ++ [.defn d] →
    processLines oracle fr ts = .ok { fr with
      cur_line_nb := fr.cur_line_nb + ts.length,
      output := (out0 ++ [.defn { text := d.text ++ catS ts, lean := d.lean }]) }
  | [], _, fr, out0, d, hn, hout => by
    show Except.ok fr = _
    have e : ({ text := d.text ++ catS [], lean := d.lean } : Definition) = d := by
      show ({ text := d.text ++ "", lean := d.lean } : Definition) = d
      rw [String.append_empty]
    rw [e, ← hout]
    rfl
  | t :: ts, hts, fr, out0, d, hn, hout => by
    have hpt : plainLine t = true := hts t (List.mem_cons_self t ts)
    have hrest : ∀ x ∈ ts, plainLine x = true := fun x hx => hts x (List.mem_cons_of_mem t hx)
    have hidx : fr.output[out0.length]? = some (.defn d) := by
      rw [hout]; exact List.getElem?_concat_length out0 (.defn d)
    have hstep : stepLine oracle fr t = .ok { fr with
        cur_line_nb := fr.cur_line_nb + 1,
        output := (out0 ++ [.defn { text := d.text ++ t, lean := d.lean }]) } := by
      rw [stepLine_plain oracle fr t hpt, hn]
      simp [runNormalH, hidx]
      rw [hout, set_concat_length]
    show (match stepLine oracle fr t with
          | .error e => Except.error e
          | .ok fr2 => processLines oracle fr2 ts) = _
    rw [hstep]
    show processLines oracle _ ts = _
    rw [defTextRun oracle ts hrest { fr with
        cur_line_nb := fr.cur_line_nb + 1,
        output := (out0 ++ [.defn { text := d.text ++ t, lean := d.lean }]) }
      out0 { text := d.text ++ t, lean := d.lean } hn rfl]
    have e1 : (d.text ++ t) ++ catS ts = d.text ++ catS (t :: ts) := by
      show (d.text ++ t) ++ catS ts = d.text ++ (t ++ catS ts)
      exact String.append_assoc d.text t (catS ts)
    have e2 : fr.cur_line_nb + 1 + ts.length = fr.cur_line_nb + (t :: ts).length := by
      simp; omega
    rw [e1, e2]

/-- Running plain lines through the `DefinitionEnd` code handler appends
them all to the definition's `lean` buffer. -/
theorem defCodeRun (oracle : Oracle) :
    ∀ (cs : List String), (∀ c ∈ cs, plainLine c = true) →
    ∀ (fr : FileReader) (out0 : List Node) (d : Definition),
    fr.normalH = .defCode out0.length →
    fr.output = out0 ++ [.defn d] →
    processLines oracle fr cs = .ok { fr with
      cur_line_nb := fr.cur_line_nb + cs.length,
      output := (out0 ++ [.defn { text := d.text, lean := d.lean ++ catS cs }]) }
  | [], _, fr, out0, d, hn, hout => by
    show Except.ok fr = _
    have e : ({ text := d.text, lean := d.lean ++ catS [] } : Definition) = d := by
      show ({ text := d.text, lean := d.lean ++ "" } : Definition) = d
      rw [String.append_empty]
    rw [e, ← hout]
    rfl
  | c :: cs, hcs, fr, out0, d, hn, hout => by
    have hpc : plainLine c = true := hcs c (List.mem_cons_self c cs)
    have hrest : ∀ x ∈ cs, plainLine x = true := fun x hx => hcs x (List.mem_cons_of_mem c hx)
    have hidx : fr.output[out0.length]? = some (.defn d) := by
      rw [hout]; exact List.getElem?_concat_length out0 (.defn d)
    have hstep : stepLine oracle fr c = .ok { fr with
        cur_line_nb := fr.cur_line_nb + 1,
        output := (out0 ++ [.defn { text := d.text, lean := d.lean ++ c }]) } := by
      rw [stepLine_plain oracle fr c hpc, hn]
      simp [runNormalH, hidx]
      rw [hout, set_concat_length]
    show (match stepLine oracle fr c with
          | .error e => Except.error e
          | .ok fr2 => processLines oracle fr2 cs) = _
    rw [hstep]
    show processLines oracle _ cs = _
    rw [defCodeRun oracle cs hrest { fr with
        cur_line_nb := fr.cur_line_nb + 1,
        output := (out0 ++ [.defn { text := d.text, lean := d.lean ++ c }]) }
      out0 { text := d.text, lean := d.lean ++ c } hn rfl]
    have e1 : (d.lean ++ c) ++ catS cs = d.lean ++ catS (c :: cs) := by
      show (d.lean ++ c) ++ catS cs = d.lean ++ (c ++ catS cs)
      exact String.append_assoc d.lean c (catS cs)
    have e2 : fr.cur_line_nb + 1 + cs.length = fr.cur_line_nb + (c :: cs).length := by
      simp; omega
    rw [e1, e2]

theorem processLines_cons_ok {oracle : Oracle} {fr : FileReader} {l : String}
    {fr1 : FileReader} {ls : List String} {r : Except ParseErr FileReader}
    (h : stepLine oracle fr l = .ok fr1) (h2 : processLines oracle fr1 ls = r) :
    processLines oracle fr (l :: ls) = r := by
  show (match stepLine oracle fr l with
        | .error e => Except.error e
        | .ok fr2 => processLines oracle fr2 ls) = r
  rw [h]
  exact h2

theorem processLines_chunk_ok {oracle : Oracle} {fr : FileReader} {ls1 : List String}
    {fr1 : FileReader} {ls2 : List String} {r : Except ParseErr FileReader}
    (h : processLines oracle fr ls1 = .ok fr1) (h2 : processLines oracle fr1 ls2 = r) :
    processLines oracle fr (ls1 ++ ls2) = r := by
  rw [processLines_append oracle ls1 ls2 fr, h]
  exact h2

/-- Claim C1: for a lemma whose proof block contains k comment-introduced
steps with tactic-line counts n1, ..., nk, the resulting proof holds
exactly k proof items, in input order, whose line counts are
n1, ..., nk. -/
theorem c1_proof_item_counts (oracle : Oracle) (ho : oracleTotal oracle)
    (gs : List Step) (hgs : ∀ g ∈ gs, goodStep g = true)
    (fr : FileReader) (pre : List Node) (L : Lemma)
    (hst : fr.status = "proof") (hout : fr.output = pre ++ [.lem L])
    (hL : L.proof.items = []) :
    ∃ (fr2 : FileReader) (L2 : Lemma),
      processLines oracle fr (stepsLines gs) = .ok fr2 ∧
      fr2.output = pre ++ [.lem L2] ∧
      L2.proof.items.length = gs.length ∧
      L2.proof.items.map (fun it => it.lines.length) = gs.map (fun g => g.tactics.length) := by
  obtain ⟨fr2, its, hp, hout2, hmap, -, -, -⟩ := proofRun oracle ho gs hgs fr pre L hst hout
  have hlen : its.length = gs.length := by
    have h0 := congrArg List.length hmap
    simpa using h0
  refine ⟨fr2, lemSetItems L (L.proof.items ++ its), hp, hout2, ?_, ?_⟩
  · show (L.proof.items ++ its).length = gs.length
    rw [hL]
    simpa using hlen
  · show (L.proof.items ++ its).map (fun it => it.lines.length) = _
    rw [hL]
    simpa using hmap

/-- Witness for C1: a concrete two-step proof body with line counts 2
and 1. -/
theorem c1_witness :
    ∃ (fr2 : FileReader) (L2 : Lemma),
      processLines oneOracle c1fr (stepsLines c1steps) = .ok fr2 ∧
      fr2.output = [] ++ [.lem L2] ∧
      L2.proof.items.length = c1steps.length ∧
      L2.proof.items.map (fun it => it.lines.length) = c1steps.map (fun g => g.tactics.length) :=
  c1_proof_item_counts oneOracle (fun _ _ _ => ⟨"", rfl⟩) c1steps (by decide)
    c1fr [] emptyLemma rfl rfl rfl

/-- Claim C2: consuming a tactic line inside an annotated step issues
exactly two verifier queries — one at column 1 and one at column equal to
the length of the raw line, both at the current file identity and 1-based
line number — and stores the two returned states as the new ProofLine's
left and right tactic states together with the raw line. -/
theorem c2_two_queries (oracle : Oracle) (fr : FileReader) (line : String)
    (i j : Nat) (L : Lemma) (it : ProofItem) (s1 s2 : String)
    (hn : fr.normalH = .proofTactic i j)
    (hout : fr.output[i]? = some (.lem L))
    (hit : L.proof.items[j]? = some it)
    (hp : plainLine line = true)
    (h1 : oracle fr.filename (fr.cur_line_nb + 1) 1 = some s1)
    (h2 : oracle fr.filename (fr.cur_line_nb + 1) line.length = some s2) :
    ∃ fr2 : FileReader, stepLine oracle fr line = .ok fr2 ∧
      fr2.queries = fr.queries ++ [(fr.filename, fr.cur_line_nb + 1, 1),
                                   (fr.filename, fr.cur_line_nb + 1, line.length)] ∧
      fr2.output = fr.output.set i (.lem (lemSetItems L (L.proof.items.set j
        { it with lines := (it.lines ++
            [{ lean := line, tactic_state_left := s1, tactic_state_right := s2 }]) }))) :=
  ⟨_, stepLine_proofTactic oracle fr line i j L it s1 s2 hn hout hit hp h1 h2, rfl, rfl⟩

/-- Witness for C2: one tactic line of length 10 at line 7 of file f. -/
theorem c2_witness :
    ∃ fr2 : FileReader, stepLine oneOracle c2fr "  rw foo,\n" = .ok fr2 ∧
      fr2.queries = c2fr.queries ++ [("f", 7, 1), ("f", 7, 10)] ∧
      fr2.output = c2fr.output.set 0 (.lem (lemSetItems
        { text := "", lean := "", proof := { items := [{ text := "c", lines := [] }] } }
        ([{ text := "c", lines := [] }].set 0
          { text := "c", lines := ([] ++
              [{ lean := "  rw foo,\n", tactic_state_left := "", tactic_state_right := "" }]) }))) :=
  c2_two_queries oneOracle c2fr "  rw foo,\n" 0 0
    { text := "", lean := "", proof := { items := [{ text := "c", lines := [] }] } }
    { text := "c", lines := [] } "" "" rfl rfl rfl rfl rfl rfl

/-- Claim C3 (counterexample): parsing the eight-line round-trip input
yields one Lemma whose single ProofLine stores the raw tactic line with
its end-of-line terminator, not the terminator-free form the claim
states. -/
theorem c3_counterexample :
    readLines oneOracle "f" c3lines = .ok [c3node "" ""] ∧
    ("  exact rfl,\n" : String) ≠ "  exact rfl," :=
  ⟨rfl, by decide⟩

/-- Claim C3 (amended): the eight-line round trip yields exactly one
Lemma with text `Title.` plus terminator, lean code `def foo := 1` plus
terminator, and one Proof with one ProofItem of text `step one` owning one
ProofLine whose code is the raw line `  exact rfl,` including its
end-of-line terminator. -/
theorem c3_amended (oracle : Oracle) (s1 s2 : String)
    (h1 : oracle "f" 7 1 = some s1) (h2 : oracle "f" 7 13 = some s2) :
    readLines oracle "f" c3lines = .ok [c3node s1 s2] := by
  have h6 : processLines oracle (initFR "f")
      ["/- Lemma\n", "Title.\n", "-/\n", "def foo := 1\n", "begin\n", "  -- step one\n"] =
      .ok { status := "proof_comment", output := [.lem c3lemma0],
            normalH := .proofTactic 0 0, blankH := .dismiss,
            filename := "f", cur_line_nb := 6, queries := [] } := rfl
  have h7 := stepLine_proofTactic oracle
    { status := "proof_comment", output := [.lem c3lemma0],
      normalH := .proofTactic 0 0, blankH := .dismiss,
      filename := "f", cur_line_nb := 6, queries := [] }
    "  exact rfl,\n" 0 0 c3lemma0
    { text := "step one", lines := [] } s1 s2 rfl rfl rfl rfl h1 h2
  have hall : processLines oracle (initFR "f") c3lines =
      .ok { status := "", output := [c3node s1 s2],
            normalH := .dismiss, blankH := .dismiss,
            filename := "f", cur_line_nb := 8, queries := [("f", 7, 1), ("f", 7, 13)] } := by
    have hsplit : c3lines =
        ["/- Lemma\n", "Title.\n", "-/\n", "def foo := 1\n", "begin\n", "  -- step one\n"] ++
        ["  exact rfl,\n", "end\n"] := rfl
    rw [hsplit]
    exact processLines_chunk_ok h6 (processLines_cons_ok h7 rfl)
  unfold readLines
  rw [hall]
  rfl

/-- Witness for the amended C3 at an always-succeeding verifier. -/
theorem c3_amended_witness :
    readLines oneOracle "f" c3lines = .ok [c3node "" ""] :=
  c3_amended oneOracle "" "" rfl rfl

/-- Claim C4 (counterexample): a generic closing marker in the default
mode is silently dropped and the parse succeeds with empty output, rather
than failing with a structural nesting error. -/
theorem c4_counterexample : readLines oneOracle "f" ["-/\n"] = .ok [] := rfl

/-- Claim C4 (amended): a generic closing marker whose guard matches no
open mode is declined by every close rule and falls through to the current
per-line callback; with the default dismissing callback it is silently
ignored and the parse continues. -/
theorem c4_close_fallthrough (oracle : Oracle) (fr : FileReader) (line : String)
    (h : closeMatch line = true)
    (h1 : fr.status ≠ "section") (h2 : fr.status ≠ "subsection") (h3 : fr.status ≠ "text")
    (h4 : fr.status ≠ "definition_text") (h5 : fr.status ≠ "lemma_text") :
    stepLine oracle fr line =
      runNormalH oracle fr.normalH { fr with cur_line_nb := fr.cur_line_nb + 1 } line ∧
    (fr.normalH = .dismiss →
      stepLine oracle fr line = .ok { fr with cur_line_nb := fr.cur_line_nb + 1 }) := by
  have hmain := stepLine_close_fallthrough oracle fr line h h1 h2 h3 h4 h5
  refine ⟨hmain, fun hd => ?_⟩
  rw [hmain, hd]
  rfl

/-- Witness for the amended C4: a stray closing marker in the initial
state. -/
theorem c4_witness :
    stepLine oneOracle (initFR "f") " -/ \n" =
      .ok { initFR "f" with cur_line_nb := (initFR "f").cur_line_nb + 1 } :=
  (c4_close_fallthrough oneOracle (initFR "f") " -/ \n" rfl
    (by decide) (by decide) (by decide) (by decide) (by decide)).2 rfl

/-- Claim C5: reaching end of input with a non-default mode still open is
a structural nesting error, not a partial result. -/
theorem c5_eof_open_mode (oracle : Oracle) (f : String) (ls : List String) (fr : FileReader)
    (h : processLines oracle (initFR f) ls = .ok fr) (hst : fr.status ≠ "") :
    readLines oracle f ls = .error (.openMode fr.status fr.cur_line_nb) := by
  unfold readLines
  rw [h]
  have hb : (fr.status == "") = false := beq_eq_false_iff_ne.mpr hst
  simp [hb]

/-- Witness for C5: the unmatched-Section input of spec section 8. -/
theorem c5_witness : readLines oneOracle "f" c5lines = .error (.openMode "section" 2) :=
  c5_eof_open_mode oneOracle "f" c5lines
    { status := "section", output := [.sec { title := "Title\n" }], normalH := .secTitle 0,
      blankH := .dismiss, filename := "f", cur_line_nb := 2, queries := [] }
    rfl (by decide)

/-- Claim C6: a failed verifier query aborts the parse of the proof with
the failing (file, line, column); no placeholder state is stored. -/
theorem c6_query_failure (oracle : Oracle) (fr : FileReader) (line : String)
    (i j : Nat) (L : Lemma) (it : ProofItem)
    (hn : fr.normalH = .proofTactic i j)
    (hout : fr.output[i]? = some (.lem L))
    (hit : L.proof.items[j]? = some it)
    (hp : plainLine line = true) :
    (oracle fr.filename (fr.cur_line_nb + 1) 1 = none →
      stepLine oracle fr line = .error (.queryFail fr.filename (fr.cur_line_nb + 1) 1)) ∧
    (∀ s1, oracle fr.filename (fr.cur_line_nb + 1) 1 = some s1 →
      oracle fr.filename (fr.cur_line_nb + 1) line.length = none →
      stepLine oracle fr line = .error (.queryFail fr.filename (fr.cur_line_nb + 1) line.length)) := by
  constructor
  · intro h1
    rw [stepLine_plain oracle fr line hp, hn]
    simp [runNormalH, hout, hit, h1]
  · intro s1 h1 h2
    rw [stepLine_plain oracle fr line hp, hn]
    simp [runNormalH, hout, hit, h1, h2]

/-- Witness for C6: an unreachable verifier fails the very first query of
a tactic line at (g, 4, 1). -/
theorem c6_witness :
    stepLine noneOracle c6fr "  ring,\n" = .error (.queryFail "g" 4 1) :=
  (c6_query_failure noneOracle c6fr "  ring,\n" 0 0
    { text := "", lean := "", proof := { items := [{ text := "c", lines := [] }] } }
    { text := "c", lines := [] } rfl rfl rfl rfl).1 rfl

/-- Claim C7 (counterexample): inside a prose block, the non-blank line
`begin` is not appended to the current Paragraph — the `ProofBegin` rule
(which fires in any mode) captures it, leaving the paragraph empty. -/
theorem c7_counterexample :
    readLines oneOracle "f" c7lines = .ok [.text { paragraphs := [{ content := "" }] }] ∧
    ({ content := "" } : Paragraph) ≠ { content := "begin\n" } :=
  ⟨rfl, by decide⟩

/-- Claim C7 (amended): in text mode a lone whitespace-tolerant closing
marker closes the block, and any other non-blank line matching no rule
pattern — in particular a line merely containing the closing marker among
other text — is appended to the current Paragraph. -/
theorem c7_text_lines (oracle : Oracle) (fr : FileReader) (i : Nat) (t : Text) (line : String)
    (hst : fr.status = "text") (hn : fr.normalH = .textAppend i)
    (hout : fr.output[i]? = some (.text t)) :
    (closeMatch line = true →
      stepLine oracle fr line = .ok (reset { fr with cur_line_nb := fr.cur_line_nb + 1 })) ∧
    (plainLine line = true → ∀ ps p, t.paragraphs = ps ++ [p] →
      stepLine oracle fr line = .ok { fr with
        cur_line_nb := fr.cur_line_nb + 1,
        output := (fr.output.set i
          (.text { paragraphs := ps ++ [{ content := p.content ++ line }] })) }) := by
  constructor
  · intro h
    exact stepLine_close_text oracle fr line h hst
  · intro h ps p hpar
    rw [stepLine_plain oracle fr line h, hn]
    simp [runNormalH, hout, hpar, List.getLast?_concat, List.dropLast_concat]

/-- Witness for the amended C7: a content line containing the closing
marker among other text is appended; a whitespace-padded lone marker
closes the block. -/
theorem c7_witness :
    stepLine oneOracle c7fr "foo -/ bar\n" = .ok { c7fr with
      cur_line_nb := c7fr.cur_line_nb + 1,
      output := (c7fr.output.set 0
        (.text { paragraphs := [] ++ [{ content := "p" ++ "foo -/ bar\n" }] })) } ∧
    stepLine oneOracle c7fr "  -/ \n" = .ok (reset { c7fr with cur_line_nb := c7fr.cur_line_nb + 1 }) := by
  constructor
  · exact (c7_text_lines oneOracle c7fr 0 { paragraphs := [{ content := "p" }] } "foo -/ bar\n"
      rfl rfl rfl).2 rfl [] { content := "p" } rfl
  · exact (c7_text_lines oneOracle c7fr 0 { paragraphs := [{ content := "p" }] } "  -/ \n"
      rfl rfl rfl).1 rfl

/-- Claim C8 (counterexample): a header-begin marker line standing between
the Definition's closing marker and the first blank line is captured by
the `HeaderBegin` rule rather than appended to the `lean` buffer, which
stays empty. -/
theorem c8_counterexample :
    readLines oneOracle "f" c8lines = .ok [.defn { text := "T\n", lean := "" }] ∧
    ("" : String) ≠ "-- begin header\n" :=
  ⟨rfl, by decide⟩

/-- Claim C8 (amended): for a Definition block, commentary and code are
split exactly at the closing marker and code accumulation ends exactly at
the first blank line after it: every rule-free non-blank line between the
closing marker and that blank line is appended to `lean`, and no later
line reaches the Definition. -/
theorem c8_definition_block (oracle : Oracle) (fr : FileReader) (ts cs rest : List String)
    (hts : ∀ t ∈ ts, plainLine t = true) (hcs : ∀ c ∈ cs, plainLine c = true)
    (hrest : ∀ x ∈ rest, plainLine x = true ∨ blankLine x = true) :
    ∃ fr2 : FileReader,
      processLines oracle fr
        ("/- Definition\n" :: (ts ++ ("-/\n" :: (cs ++ ("\n" :: rest))))) = .ok fr2 ∧
      fr2.output = fr.output ++ [.defn { text := catS ts, lean := catS cs }] ∧
      fr2.status = "" ∧ fr2.normalH = .dismiss ∧ fr2.blankH = .dismiss := by
  have hend := stepLine_defEnd oracle
    { fr with
      cur_line_nb := fr.cur_line_nb + 1 + ts.length,
      status := "definition_text",
      output := (fr.output ++ [.defn { text := "" ++ catS ts, lean := "" }]),
      normalH := .defText fr.output.length }
    rfl (isEmpty_concat_false _ _)
  refine ⟨_, processLines_cons_ok (stepLine_defBegin oracle fr)
    (processLines_chunk_ok
      (defTextRun oracle ts hts _ fr.output { text := "", lean := "" } rfl rfl)
      (processLines_cons_ok hend
        (processLines_chunk_ok
          (defCodeRun oracle cs hcs _ fr.output { text := catS ts, lean := "" } (by simp) rfl)
          (processLines_cons_ok (stepLine_blank_defReset oracle _ "\n" rfl rfl)
            (processLines_steady oracle rest hrest _ rfl rfl))))), rfl, rfl, rfl, rfl⟩

/-- Witness for the amended C8: one commentary line, one code line, one
trailing plain line after the blank. -/
theorem c8_witness :
    ∃ fr2 : FileReader,
      processLines oneOracle (initFR "f")
        ("/- Definition\n" :: (["T\n"] ++ ("-/\n" :: (["def x := 2\n"] ++ ("\n" :: ["junk\n"]))))) =
        .ok fr2 ∧
      fr2.output = (initFR "f").output ++
        [.defn { text := catS ["T\n"], lean := catS ["def x := 2\n"] }] ∧
      fr2.status = "" ∧ fr2.normalH = .dismiss ∧ fr2.blankH = .dismiss :=
  c8_definition_block oneOracle (initFR "f") ["T\n"] ["def x := 2\n"] ["junk\n"]
    (by decide) (by decide) (by decide)

/-- Claim C9 (counterexample): a Section opening marker inside the header
region is not discarded — the `SectionBegin` rule fires even in header
mode and contributes a document node. -/
theorem c9_counterexample :
    readLines oneOracle "f" c9lines = .ok [.sec { title := "" }] ∧
    ([.sec { title := "" }] : List Node) ≠ [] :=
  ⟨rfl, by decide⟩

/-- Claim C9 (amended): an input consisting of a header region whose
interior lines match no rule pattern parses to the empty output
sequence. -/
theorem c9_header_only (oracle : Oracle) (f : String) (mid : List String)
    (hmid : ∀ l ∈ mid, plainLine l = true ∨ blankLine l = true) :
    readLines oracle f ("-- begin header\n" :: (mid ++ ["-- end header\n"])) = .ok [] := by
  unfold readLines
  rw [processLines_cons_ok (stepLine_headerBegin oracle (initFR f))
    (processLines_chunk_ok (processLines_steady oracle mid hmid _ rfl rfl)
      (processLines_cons_ok (stepLine_headerEnd oracle _) rfl))]
  rfl

/-- Witness for the amended C9: a header with two discarded lines and a
blank line. -/
theorem c9_witness :
    readLines oneOracle "f" ("-- begin header\n" :: (["import data\n", "\n", "open nat\n"] ++
      ["-- end header\n"])) = .ok [] :=
  c9_header_only oneOracle "f" ["import data\n", "\n", "open nat\n"] (by decide)

/-- Claim C10: a proof comment matched in mode `proof` appends its new
ProofItem to the most recently appended node, assumed to be a Lemma; if
that node is not a Lemma the step fails with the structural abort error
instead of producing a ProofItem. -/
theorem c10_comment_requires_lemma (oracle : Oracle) (fr : FileReader) (line cap : String)
    (hc : commentOnly line = true) (hcap : proofCommentCap line = some cap)
    (hst : fr.status = "proof") :
    (∀ pre L, fr.output = pre ++ [.lem L] →
      stepLine oracle fr line = .ok { fr with
        cur_line_nb := fr.cur_line_nb + 1,
        status := "proof_comment",
        output := (pre ++ [.lem (lemSetItems L (L.proof.items ++ [{ text := cap, lines := [] }]))]),
        normalH := .proofTactic pre.length L.proof.items.length }) ∧
    ((∀ L : Lemma, fr.output.getLast? ≠ some (.lem L)) →
      stepLine oracle fr line = .error .attrErr) := by
  constructor
  · intro pre L hout
    exact stepLine_comment_proof oracle fr line cap pre L hc hcap hst hout
  · intro hlast
    obtain ⟨-, h1, h2, h3, h4, h5, h6, h7, h8, h9, h10, h11⟩ := commentOnly_spec line hc
    simp only [stepLine, h11, Bool.false_eq_true, if_false]
    simp only [tryRules, h1, h2, h3, h4, h5, h6, h7, h8, h9, h10, Bool.false_and,
      Bool.false_eq_true, if_false, hcap]
    rw [hst]
    cases hg : fr.output.getLast? with
    | none => simp
    | some n =>
      cases n with
      | lem L => exact absurd hg (hlast L)
      | text t => simp
      | sec s => simp
      | subsec s => simp
      | defn d => simp

/-- Witness for C10: a proof comment arriving after a Definition aborts
the step, and the whole five-line parse fails with the abort error. -/
theorem c10_witness :
    stepLine oneOracle c10fr "-- c\n" = .error .attrErr ∧
    readLines oneOracle "f" c10lines = .error .attrErr := by
  constructor
  · exact (c10_comment_requires_lemma oneOracle c10fr "-- c\n" "c" rfl rfl rfl).2
      (fun L h => Node.noConfusion (Option.some.inj h))
  · rfl

end FormatLean
